import Mathlib

set_option maxRecDepth 10000

/-!
Verification of the PricePulse scrape-extract-match-reconcile pipeline
(`backend/app/scraper.py`, `backend/app/scheduler.py`, `backend/app/main.py`)
against its natural-language specification.

Modelling conventions:
* Python strings are modelled as Lean `String` / `List Char`; Python's
  truthiness test `if s:` on a string is `s ≠ ""`, on an optional int it is
  "is some non-zero value".
* Python `float` in `_extract_price` is modelled twice.  `extract_price`
  uses exact rationals: an idealization that is bit-accurate whenever the
  parsed value and its product with 100 are exactly representable doubles
  (in particular on the integral-paise inputs used by the extractor
  theorems).  `extract_price_double` makes double precision explicit via
  `roundDouble`, round-to-nearest-even at 53 bits: `float(s)` is the
  correctly rounded parse, `* 100` the correctly rounded product, `int()`
  truncation toward zero.  The Price Normalizer claim is settled against the
  bit-accurate model.
* `datetime.utcnow()` is modelled as an explicit `now : Nat` parameter.
* The SQLAlchemy session is modelled as an explicit record of table contents;
  `db.commit()` publishes the staged changes, `db.rollback()` discards them.
  In `update_product_price` / `update_cross_platform_comparison` the only
  statements that can raise are the scrape / search calls, which occur before
  any staged mutation, so a raised exception leaves the state unchanged.
* The outcome of `send_price_drop_alert` is passed in as an unread
  `deliveryOk` oracle: in the source the awaited send is wrapped in
  `try/except` that only logs, so the session state never depends on it.
-/

deriving instance DecidableEq for Except

namespace PricePulse

/-! ## Character and string helpers (Python semantics) -/

/-- Python regex word character (`\w`), ASCII fragment. -/
def isWordChar (c : Char) : Bool :=
  c.isAlpha || c.isDigit || c = '_'

/-- Character class `[A-Z0-9]` used by `extract_model`'s regex. -/
def isUpperAlnum (c : Char) : Bool :=
  ('A' ≤ c && c ≤ 'Z') || c.isDigit

/-- Python `str.strip()` on a character list (strip whitespace on both ends). -/
def pyStrip (l : List Char) : List Char :=
  ((l.dropWhile Char.isWhitespace).reverse.dropWhile Char.isWhitespace).reverse

/-- Python `str.strip()` on a `String`. -/
def pyStripStr (s : String) : String :=
  String.mk (pyStrip s.data)

/-- Decides whether `needle` is a prefix of `hay` (character lists). -/
def isPrefixOfChars : List Char → List Char → Bool
  | [], _ => true
  | _ :: _, [] => false
  | a :: as, b :: bs => a = b && isPrefixOfChars as bs

/-- Python substring test `needle in hay` on character lists. -/
def containsSub (needle : List Char) : List Char → Bool
  | [] => needle.isEmpty
  | c :: cs => isPrefixOfChars needle (c :: cs) || containsSub needle cs

/-- Python `str.lower()` on a character list (ASCII fragment). -/
def lowerL (l : List Char) : List Char :=
  l.map Char.toLower

/-! ## Query Builder (`scraper.py` lines 48-64) -/

/-- Delimiter class of `extract_core_title`'s `re.split(r'[\(\|\-,]', ...)`. -/
def isCoreDelim (c : Char) : Bool :=
  c = '(' || c = '|' || c = '-' || c = ','

/-- Source `extract_core_title`: the part of the name before the first
`(`, `|`, `-` or `,`, stripped. -/
def extract_core_title (product_name : String) : String :=
  String.mk (pyStrip (product_name.data.takeWhile (fun c => !isCoreDelim c)))

/-- Accumulator pass of `wordRuns`: `acc` is the current word run, reversed. -/
def wordRunsAux : List Char → List Char → List (List Char)
  | [], acc => if acc.isEmpty then [] else [acc.reverse]
  | c :: cs, acc =>
    if isWordChar c then wordRunsAux cs (c :: acc)
    else if acc.isEmpty then wordRunsAux cs []
    else acc.reverse :: wordRunsAux cs []

/-- Maximal runs of word characters of a string, in order.  A match of the
source regex `\b([A-Z0-9]{5,})\b` is exactly a maximal word-character run
whose characters all lie in `[A-Z0-9]` and whose length is at least 5
(a shorter `[A-Z0-9]` stretch inside a longer word run is rejected by the
word boundaries). -/
def wordRuns (l : List Char) : List (List Char) :=
  wordRunsAux l []

/-- Source `extract_model`: `re.search(r'\b([A-Z0-9]{5,})\b', name)`,
returning the first maximal word run that is ≥5 characters of `[A-Z0-9]`. -/
def extract_model (product_name : String) : Option String :=
  ((wordRuns product_name.data).find?
    (fun r => decide (5 ≤ r.length) && r.all isUpperAlnum)).map String.mk

/-- Source `build_search_query`. -/
def build_search_query (product_name brand : String) : String :=
  match extract_model product_name with
  | some model => pyStripStr (brand ++ " " ++ model)
  | none =>
    let core_title := extract_core_title product_name
    if containsSub (lowerL brand.data) (lowerL core_title.data) then
      pyStripStr core_title
    else
      pyStripStr (brand ++ " " ++ core_title)

/-! ## Price Normalizer (`scraper.py` lines 268-278, `_extract_price`) -/

/-- Source `price_text.replace('â‚¹', '')`: drop every (non-overlapping,
leftmost-first) occurrence of the three-character mojibake sequence. -/
def stripRupeeMojibake : List Char → List Char
  | 'â' :: '‚' :: '¹' :: rest => stripRupeeMojibake rest
  | c :: rest => c :: stripRupeeMojibake rest
  | [] => []

/-- Character class `[\d,]` of the price regex. -/
def digitOrComma (c : Char) : Bool :=
  c.isDigit || c = ','

/-- Greedy match of `[\d,]+\.?\d*` starting at the head of `l` (the head is
assumed to be in `[\d,]`). -/
def numAt (l : List Char) : List Char :=
  let r1 := l.takeWhile digitOrComma
  match l.drop r1.length with
  | '.' :: rest => r1 ++ '.' :: rest.takeWhile Char.isDigit
  | _ => r1

/-- Source `re.search(r'[\d,]+\.?\d*', text)`: leftmost match, or `none`. -/
def findFirstNumber : List Char → Option (List Char)
  | [] => none
  | c :: cs =>
    if digitOrComma c then some (numAt (c :: cs)) else findFirstNumber cs

/-- Numeric value of a digit list (most significant first). -/
def natOfDigits (l : List Char) : Nat :=
  l.foldl (fun a c => 10 * a + (c.toNat - '0'.toNat)) 0

/-- Python `float(s)` on the shapes producible by the price regex after comma
removal: optional integer digits, optional `'.'`, optional fraction digits;
fails on the empty string and on a bare `"."`. -/
def parseDecimal (l : List Char) : Option Rat :=
  let intPart := l.takeWhile Char.isDigit
  match l.drop intPart.length with
  | [] => if intPart.isEmpty then none else some (natOfDigits intPart : Rat)
  | '.' :: frac =>
    if frac.all Char.isDigit then
      if intPart.isEmpty && frac.isEmpty then none
      else some ((natOfDigits intPart : Rat) + (natOfDigits frac : Rat) / (10 : Rat) ^ frac.length)
    else none
  | _ => none

/-- Python `int(..)` on a float: truncation toward zero. -/
def pyInt (q : Rat) : Int :=
  if 0 ≤ q then q.floor else -((-q).floor)

/-- Source `ProductScraper._extract_price`.  Clean the text (drop the rupee
mojibake, drop commas, strip), find the first `[\d,]+\.?\d*` substring, drop
its commas, parse it, and return `int(value * 100)`.  A parse failure raises
`ValueError` (the spec's `PriceParseError`), modelled as `Except.error ()`.
Arithmetic here is exact-rational — an idealization of Python's doubles that
is bit-accurate whenever the parsed value and its product with 100 are
exactly representable (true of every price these theorems feed it);
`extract_price_double` below models the double rounding itself. -/
def extract_price (price_text : String) : Except Unit Int :=
  let cleaned := pyStrip ((stripRupeeMojibake price_text.data).filter (fun c => c ≠ ','))
  match findFirstNumber cleaned with
  | some m =>
    match parseDecimal (m.filter (fun c => c ≠ ',')) with
    | some v => Except.ok (pyInt (v * 100))
    | none => Except.error ()
  | none => Except.error ()

/-- Modelled from the spec: the Price Normalizer contract as written in §4.2
and claim C3, which returns `round(value * 100)` (round-half-up) instead of
the source's truncation.  Used only to compare against `extract_price`. -/
def extract_price_specRound (price_text : String) : Except Unit Int :=
  let cleaned := pyStrip ((stripRupeeMojibake price_text.data).filter (fun c => c ≠ ','))
  match findFirstNumber cleaned with
  | some m =>
    match parseDecimal (m.filter (fun c => c ≠ ',')) with
    | some v => Except.ok (round (v * 100))
    | none => Except.error ()
  | none => Except.error ()

/-- Round the fraction `N / D` (with `D ≠ 0`) to the nearest natural number,
ties to even: the IEEE-754 default rounding applied to an already-scaled
significand. -/
def natRoundHalfEven (N D : Nat) : Nat :=
  let q0 := N / D
  let r := N % D
  if 2 * r < D then q0
  else if 2 * r = D then (if q0 % 2 = 0 then q0 else q0 + 1)
  else q0 + 1

/-- Fuel-bounded base-two logarithm on naturals: with enough fuel this is
`⌊log₂ n⌋` for `n ≥ 1` (structural recursion on the fuel, so the kernel can
evaluate it on concrete inputs). -/
def natLog2Aux : Nat → Nat → Nat
  | 0, _ => 0
  | fuel+1, n => if n ≤ 1 then 0 else natLog2Aux fuel (n / 2) + 1

/-- Floor of the base-two logarithm of the positive fraction `n / d`: the
unique `k` with `2^k ≤ n/d < 2^(k+1)`, computed from the bit lengths of
numerator and denominator with a one-step correction (the comparisons are
cross-multiplied so that only natural-number arithmetic is used). -/
def natLog2Floor (n d : Nat) : Int :=
  let k : Int := (natLog2Aux 2200 n : Int) - (natLog2Aux 2200 d : Int)
  if (if 0 ≤ k + 1 then d * 2 ^ (k + 1).toNat ≤ n else d ≤ n * 2 ^ (-(k + 1)).toNat)
  then k + 1
  else if (if 0 ≤ k then d * 2 ^ k.toNat ≤ n else d ≤ n * 2 ^ (-k).toNat)
  then k
  else k - 1

/-- Round a rational to the nearest IEEE-754 binary64 value (round to
nearest, ties to even): scale the magnitude `n/d` to a 53-bit significand
`m = rne(n/d · 2^(-e))` with `e = ⌊log₂(n/d)⌋ - 52`, and return
`±m · 2^e`.  Exact for values in the normal binary64 range, which covers
every price this pipeline ever parses; overflow and subnormals are not
modelled. -/
def roundDouble (q : Rat) : Rat :=
  if q.num = 0 then 0
  else
    let n := q.num.natAbs
    let d := q.den
    let e : Int := natLog2Floor n d - 52
    let m : Nat :=
      if 0 ≤ e then natRoundHalfEven n (d * 2 ^ e.toNat)
      else natRoundHalfEven (n * 2 ^ (-e).toNat) d
    let sgn : Int := if q.num < 0 then -1 else 1
    if 0 ≤ e then Rat.divInt (sgn * (m * 2 ^ e.toNat : Nat)) 1
    else Rat.divInt (sgn * m) ((2 ^ (-e).toNat : Nat) : Int)

/-- Bit-accurate model of `ProductScraper._extract_price`: identical text
pipeline to `extract_price`, but with Python's double-precision arithmetic
made explicit — `float(price_str)` is the correctly rounded binary64 value of
the decimal literal (`roundDouble` of its exact value), the product with
`100` is again correctly rounded, and `int()` truncates toward zero.  On
inputs where both roundings are exact this agrees with `extract_price`. -/
def extract_price_double (price_text : String) : Except Unit Int :=
  let cleaned := pyStrip ((stripRupeeMojibake price_text.data).filter (fun c => c ≠ ','))
  match findFirstNumber cleaned with
  | some m =>
    match parseDecimal (m.filter (fun c => c ≠ ',')) with
    | some v => Except.ok (pyInt (roundDouble (roundDouble v * 100)))
    | none => Except.error ()
  | none => Except.error ()

/-- Specification vocabulary for claim C3: the exact numeric value of the
decimal literal `ds . f₁ f₂`. -/
def decimalVal (ds : List Char) (f₁ f₂ : Char) : Rat :=
  (natOfDigits ds : Rat) + (natOfDigits [f₁, f₂] : Rat) / 100

/-! ## Selector Table (`scraper.py` lines 27-44) and Platform Extractor -/

/-- Amazon name selector (`SELECTORS["amazon"]["name"]`). -/
def amazonNameSelector : String := "#productTitle"

/-- Amazon price selector candidates, in declared order. -/
def amazonPriceSelectors : List String :=
  [".a-price-whole", ".a-price .a-offscreen", "#priceblock_dealprice", "#priceblock_ourprice"]

/-- Amazon image selector candidates. -/
def amazonImageSelectors : List String := ["#landingImage", "#imgBlkFront"]

/-- Amazon brand selector. -/
def amazonBrandSelector : String := "#bylineInfo"

/-- Flipkart name selector candidates, in declared order. -/
def flipkartNameSelectors : List String :=
  ["._35KyD6", ".x2Vkpg", "h1 span", "._4rR01T"]

/-- Flipkart price selector candidates, in declared order. -/
def flipkartPriceSelectors : List String := ["._1_WHN1", "._30jeq3", "._25b18c"]

/-- Flipkart image selector candidates. -/
def flipkartImageSelectors : List String :=
  ["._396cs4 img", "._2r_T1I img", ".CXW8mj img"]

/-- Meesho name selector candidates, in declared order. -/
def meeshoNameSelectors : List String :=
  ["[data-testid=\x22product-title\x22]", ".sc-eDvSVe", "h1"]

/-- Meesho price selector candidates, in declared order. -/
def meeshoPriceSelectors : List String :=
  ["[data-testid=\x22current-price\x22]", ".sc-dkzDqf", ".ProductPrice__Container-sc-1h6x2c5-0"]

/-- Meesho image selector candidates. -/
def meeshoImageSelectors : List String :=
  ["[data-testid=\x22product-image\x22]", ".ProductImageCarousel__Image-sc-1d9b7bg-2 img", ".sc-gqjmRU img"]

/-- A loaded document, abstracting Playwright's page: `text sel` is
`page.text_content(sel)` (`none` when the element is absent, in which case the
Playwright call raises and the source's surrounding `except` continues to the
next candidate), and `attr sel` is `page.get_attribute(sel, 'src')`. -/
structure Page where
  text : String → Option String
  attr : String → Option String

/-- One selector-fallback pass of the source's name/image loops: the first
candidate whose lookup succeeds with a truthy (non-empty) value wins. -/
def firstTruthy (lookup : String → Option String) : List String → Option String
  | [] => none
  | sel :: rest =>
    match lookup sel with
    | some t => if t ≠ "" then some t else firstTruthy lookup rest
    | none => firstTruthy lookup rest

/-- Source price loop: the first candidate with truthy text is parsed by
`_extract_price`; a parse failure is swallowed by the `except` and the loop
moves on to the next candidate. -/
def priceLoop (page : Page) : List String → Option Int
  | [] => none
  | sel :: rest =>
    match page.text sel with
    | some t =>
      if t ≠ "" then
        match extract_price t with
        | Except.ok p => some p
        | Except.error _ => priceLoop page rest
      else priceLoop page rest
    | none => priceLoop page rest

/-- Error outcomes of a scrape, mirroring the exceptions of the source. -/
inductive ScrapeError where
  /-- The `wait_for_selector('#productTitle', ...)` in `scrape_product` timed out. -/
  | waitTimeout
  /-- Raised `ValueError("Could not find product name")`. -/
  | missingName
  /-- Raised `ValueError("Could not find product price")`. -/
  | missingPrice
  /-- Raised `ValueError("Unsupported platform")`. -/
  | unsupportedPlatform
  /-- An unguarded Playwright lookup raised (absent `#productTitle` inside `_scrape_amazon`). -/
  | navError
deriving DecidableEq

/-- Structured product record produced by the extractors. -/
structure ProductInfo where
  name : String
  price : Int
  image_url : String
  platform : String
  brand : String
  model : String
  url : String
deriving DecidableEq

/-- Source `'Visit the'` removal in the Amazon brand cleanup
(`b.replace('Visit the', '')`). -/
def stripVisitThe : List Char → List Char
  | 'V' :: 'i' :: 's' :: 'i' :: 't' :: ' ' :: 't' :: 'h' :: 'e' :: rest => stripVisitThe rest
  | c :: rest => c :: stripVisitThe rest
  | [] => []

/-- Source `'Store'` removal in the Amazon brand cleanup
(`....replace('Store', '')`). -/
def stripStore : List Char → List Char
  | 'S' :: 't' :: 'o' :: 'r' :: 'e' :: rest => stripStore rest
  | c :: rest => c :: stripStore rest
  | [] => []

/-- Source `ProductScraper._scrape_amazon`.  The name lookup is unguarded;
`if not name` / `if not price` use Python truthiness, so a parsed price of `0`
is treated as absent. -/
def scrape_amazon (page : Page) (url : String) : Except ScrapeError ProductInfo :=
  match page.text amazonNameSelector with
  | none => Except.error ScrapeError.navError
  | some name0 =>
    if name0 = "" then Except.error ScrapeError.missingName
    else
      let name := pyStripStr name0
      match priceLoop page amazonPriceSelectors with
      | none => Except.error ScrapeError.missingPrice
      | some price =>
        if price = 0 then Except.error ScrapeError.missingPrice
        else
          let image_url := (firstTruthy page.attr amazonImageSelectors).getD ""
          let brand :=
            match page.text amazonBrandSelector with
            | some b =>
              if b ≠ "" then
                pyStripStr (String.mk (stripStore (stripVisitThe b.data)))
              else ""
            | none => ""
          Except.ok
            { name := name, price := price, image_url := image_url,
              platform := "Amazon", brand := brand,
              model := (extract_model name).getD "", url := url }

/-- Source `ProductScraper._scrape_flipkart`. -/
def scrape_flipkart (page : Page) (url : String) : Except ScrapeError ProductInfo :=
  match firstTruthy page.text flipkartNameSelectors with
  | none => Except.error ScrapeError.missingName
  | some name0 =>
    let name := pyStripStr name0
    match priceLoop page flipkartPriceSelectors with
    | none => Except.error ScrapeError.missingPrice
    | some price =>
      if price = 0 then Except.error ScrapeError.missingPrice
      else
        Except.ok
          { name := name, price := price,
            image_url := (firstTruthy page.attr flipkartImageSelectors).getD "",
            platform := "Flipkart", brand := "", model := "", url := url }

/-- Source `ProductScraper._scrape_meesho`. -/
def scrape_meesho (page : Page) (url : String) : Except ScrapeError ProductInfo :=
  match firstTruthy page.text meeshoNameSelectors with
  | none => Except.error ScrapeError.missingName
  | some name0 =>
    let name := pyStripStr name0
    match priceLoop page meeshoPriceSelectors with
    | none => Except.error ScrapeError.missingPrice
    | some price =>
      if price = 0 then Except.error ScrapeError.missingPrice
      else
        Except.ok
          { name := name, price := price,
            image_url := (firstTruthy page.attr meeshoImageSelectors).getD "",
            platform := "Meesho", brand := "", model := "", url := url }

/-- Source `ProductScraper.scrape_product`.  Before dispatching on the URL it
always executes `await page.wait_for_selector('#productTitle', timeout=30000)`;
a document without a `#productTitle` element therefore fails with a timeout on
every platform. -/
def scrape_product (page : Page) (url : String) : Except ScrapeError ProductInfo :=
  if (page.text "#productTitle").isNone then Except.error ScrapeError.waitTimeout
  else if containsSub "amazon.in".data url.data then scrape_amazon page url
  else if containsSub "flipkart.com".data url.data then scrape_flipkart page url
  else if containsSub "meesho.com".data url.data then scrape_meesho page url
  else Except.error ScrapeError.unsupportedPlatform

/-! ## Fuzzy Matcher (`scraper.py` lines 66-75) -/

/-- One cross-platform search result (`{'platform', 'name', 'price', 'url'}`
dict), with the `match_score` key the matcher may add. -/
structure Candidate where
  platform : String
  name : String
  price : Int
  url : String
  match_score : Option Nat := none
deriving DecidableEq

/-- Fold of rapidfuzz `process.extractOne`: keep the best `(title, score,
index)` seen so far, replacing it only on a strictly greater score, so ties
keep the earliest candidate. -/
def pickBest : (String × Nat × Nat) → List (String × Nat × Nat) → (String × Nat × Nat)
  | b, [] => b
  | b, x :: xs => pickBest (if b.2.1 < x.2.1 then x else b) xs

/-- Score entries `(title, scorer target title, index)` for the titles,
numbering from `i`. -/
def scoreEntries (scorer : String → String → Nat) (target : String) :
    List String → Nat → List (String × Nat × Nat)
  | [], _ => []
  | t :: ts, i => (t, scorer target t, i) :: scoreEntries scorer target ts (i + 1)

/-- rapidfuzz `process.extractOne(target, titles, scorer=...)`: the best
`(match, score, index)`, earliest on ties; `none` on an empty list.  The
`token_set_ratio` scorer lives in the external rapidfuzz library, so it is a
parameter of the model. -/
def extractOne (scorer : String → String → Nat) (target : String)
    (titles : List String) : Option (String × Nat × Nat) :=
  match scoreEntries scorer target titles 0 with
  | [] => none
  | e :: es => some (pickBest e es)

/-- Source `fuzzy_best_match`.  Returns `[]` or one candidate annotated with
its score. -/
def fuzzy_best_match (scorer : String → String → Nat) (target : String)
    (candidates : List Candidate) (threshold : Nat := 80) : List Candidate :=
  let candidate_titles := candidates.map (fun c => c.name)
  if candidate_titles.isEmpty then []
  else
    match extractOne scorer target candidate_titles with
    | none => []
    | some (_, score, idx) =>
      if threshold ≤ score then
        match candidates[idx]? with
        | some best_result => [{ best_result with match_score := some score }]
        | none => []
      else []

/-- Specification vocabulary for claim C6: the maximal similarity score any
candidate's name attains against the target. -/
def maxCandidateScore (scorer : String → String → Nat) (target : String)
    (candidates : List Candidate) : Nat :=
  (candidates.map (fun c => scorer target c.name)).foldr max 0

/-- Specification vocabulary for claim C6: the position of the first candidate
attaining the maximal score. -/
def firstBestIdx (scorer : String → String → Nat) (target : String)
    (candidates : List Candidate) : Nat :=
  (candidates.map (fun c => scorer target c.name)).findIdx
    (fun s => s = maxCandidateScore scorer target candidates)

/-! ## Data model (`models.py`) and persistence state -/

/-- Row of the `products` table. -/
structure ProductR where
  product_id : String
  platform : String
  url : String
  name : String
  image_url : String
  brand : String
  current_price : Int
  updated_at : Nat
deriving DecidableEq

/-- Row of the `price_records` table. -/
structure PriceRecordR where
  product_id : String
  price : Int
  platform : String
deriving DecidableEq

/-- Row of the `alerts` table (with the owning user's contact inlined). -/
structure AlertR where
  alert_id : String
  user_email : String
  product_id : String
  target_price : Int
  is_active : Bool
  is_triggered : Bool
  date_triggered : Option Nat
deriving DecidableEq

/-- Row of the `platform_comparisons` table. -/
structure ComparisonR where
  product_id : String
  platform : String
  found_name : String
  found_price : Int
  found_url : String
  last_checked : Nat
deriving DecidableEq

/-- Committed contents of the four tables the pipeline touches. -/
structure DBState where
  products : List ProductR
  records : List PriceRecordR
  alerts : List AlertR
  comparisons : List ComparisonR
deriving DecidableEq

/-- SQLAlchemy `db.query(Product).filter(Product.product_id == pid).first()`. -/
def findProduct (st : DBState) (product_id : String) : Option ProductR :=
  st.products.find? (fun p => p.product_id = product_id)

/-- In-place update of the row `first()` returned: the first row with the
given id is replaced by `f` of it, the rest are untouched. -/
def updateFirstProduct (f : ProductR → ProductR) (product_id : String) :
    List ProductR → List ProductR
  | [] => []
  | p :: ps =>
    if p.product_id = product_id then f p :: ps
    else p :: updateFirstProduct f product_id ps

/-- Eligibility filter of the alert query in `update_product_price`:
`product_id == pid, is_active == True, is_triggered == False,
target_price >= new_price`. -/
def alertEligible (product_id : String) (new_price : Int) (a : AlertR) : Bool :=
  a.product_id = product_id && a.is_active && !a.is_triggered
    && decide (new_price ≤ a.target_price)

/-! ## Price Update Reconciler (`scraper.py` lines 375-431) -/

set_option linter.unusedVariables false in
/-- Source `update_product_price(product_id, db, playwright)`.  The scrape is
`scrape_product page product.url` on the supplied document; its failure is the
only exception the `try` can see before any staged write, and the handler
calls `db.rollback()`, so the state is returned unchanged.  On success the
product row is updated, one `PriceRecord` is staged, the eligible alerts are
marked triggered with `date_triggered = now`, one email send is attempted per
eligible alert (`deliveryOk` gives each attempt's outcome; the send is inside
`try/except` that only logs, so the state does not read it), and `db.commit()`
publishes everything.  Returns the committed state and the number of
notification attempts made. -/
def update_product_price (st : DBState) (product_id : String) (page : Page)
    (now : Nat) (deliveryOk : Nat → Bool) : DBState × Nat :=
  match findProduct st product_id with
  | none => (st, 0)
  | some product =>
    match scrape_product page product.url with
    | Except.error _ => (st, 0)
    | Except.ok product_info =>
      let new_price := product_info.price
      ({ st with
          products := updateFirstProduct
            (fun p => { p with current_price := new_price, updated_at := now })
            product_id st.products,
          records := st.records
            ++ [{ product_id := product_id, price := new_price,
                  platform := product.platform }],
          alerts := st.alerts.map (fun a =>
            if alertEligible product_id new_price a then
              { a with is_triggered := true, date_triggered := some now }
            else a) },
        (st.alerts.filter (alertEligible product_id new_price)).length)

/-- Specification vocabulary for claim C1: what one successful reconciler run
must have done, given the product's platform and the freshly scraped price
`p`.  `out` is the committed state paired with the number of notification
attempts: exactly one new price record with price `p` appended; the product's
current price set to `p` (and `updated_at` refreshed); alerts unchanged in
number, with each alert that was active, untriggered and had
`target_price ≥ p` now triggered with `date_triggered = now`, every other
alert untouched; one notification attempt per newly triggered alert; and the
comparison table untouched. -/
def PriceUpdateOutcome (st : DBState) (pid platform : String) (p : Int)
    (now : Nat) (out : DBState × Nat) : Prop :=
  out.1.records = st.records
      ++ [{ product_id := pid, price := p, platform := platform }]
  ∧ (∃ q, findProduct out.1 pid = some q ∧ q.current_price = p ∧ q.updated_at = now)
  ∧ out.1.alerts.length = st.alerts.length
  ∧ (∀ (i : Nat) (a : AlertR), st.alerts[i]? = some a →
      ((a.product_id = pid ∧ a.is_active = true ∧ a.is_triggered = false
          ∧ p ≤ a.target_price) →
        out.1.alerts[i]?
          = some { a with is_triggered := true, date_triggered := some now })
      ∧ (¬(a.product_id = pid ∧ a.is_active = true ∧ a.is_triggered = false
          ∧ p ≤ a.target_price) →
        out.1.alerts[i]? = some a))
  ∧ out.2 = (st.alerts.filter (alertEligible pid p)).length
  ∧ out.1.comparisons = st.comparisons

/-! ## Comparison Reconciler (`scraper.py` lines 433-464) -/

/-- Row built by the source's comparison insertion loop: one
`PlatformComparison` per search result, with `last_checked = now`. -/
def mkComparison (product_id : String) (now : Nat) (r : Candidate) : ComparisonR :=
  { product_id := product_id, platform := r.platform, found_name := r.name,
    found_price := r.price, found_url := r.url, last_checked := now }

/-- Source `update_cross_platform_comparison(product_id, db, playwright)`.
`search` is the outcome of `scraper.search_cross_platform(...)`: `none` when
the pipeline raised before the delete step (the handler rolls back, leaving
the prior comparison set untouched), `some results` otherwise.  On success the
rows with this product id are deleted, one row per result is inserted with
`last_checked = now`, and the transaction commits. -/
def update_cross_platform_comparison (st : DBState) (product_id : String)
    (search : Option (List Candidate)) (now : Nat) : DBState :=
  match findProduct st product_id with
  | none => st
  | some _ =>
    match search with
    | none => st
    | some search_results =>
      { st with comparisons :=
          st.comparisons.filter (fun c => c.product_id ≠ product_id)
          ++ search_results.map (mkComparison product_id now) }

/-! ## Job Scheduler (`scheduler.py` lines 22-46 and 68-73) -/

/-- A live APScheduler job: its deterministic id and its recurrence interval
in hours. -/
structure Job where
  id : String
  interval_hours : Nat
deriving DecidableEq

/-- Job id `f"scrape_price_{product_id}"`. -/
def scrapeJobId (product_id : String) : String := "scrape_price_" ++ product_id

/-- Job id `f"compare_price_{product_id}"`. -/
def compareJobId (product_id : String) : String := "compare_price_" ++ product_id

/-- Source `scheduler.remove_job(job_id)` guarded by `get_job`, and also the
removal `replace_existing=True` performs: every job with this id goes away. -/
def removeJob (jobs : List Job) (job_id : String) : List Job :=
  jobs.filter (fun j => j.id ≠ job_id)

/-- Source `scheduler.add_job(..., id=job_id, replace_existing=True, ...)`
preceded by the explicit get-and-remove: any existing job with the id is
dropped, then the new job is registered. -/
def addJob (jobs : List Job) (job_id : String) (interval_hours : Nat) : List Job :=
  removeJob jobs job_id ++ [{ id := job_id, interval_hours := interval_hours }]

/-- Source `schedule_product_scraping(product_id)`: upsert the hourly price
job, then the six-hourly comparison job. -/
def schedule_product_scraping (jobs : List Job) (product_id : String) : List Job :=
  addJob (addJob jobs (scrapeJobId product_id) 1) (compareJobId product_id) 6

/-- Source `remove_product_jobs(product_id)`: drop both of the product's job
ids. -/
def remove_product_jobs (jobs : List Job) (product_id : String) : List Job :=
  removeJob (removeJob jobs (scrapeJobId product_id)) (compareJobId product_id)

/-- One scheduler-facing call. -/
inductive SchedOp where
  | schedule (product_id : String)
  | remove (product_id : String)

/-- Apply one call to the job store. -/
def applySchedOp (jobs : List Job) : SchedOp → List Job
  | SchedOp.schedule product_id => schedule_product_scraping jobs product_id
  | SchedOp.remove product_id => remove_product_jobs jobs product_id

/-- Run a sequence of scheduler calls. -/
def runSchedOps (jobs : List Job) : List SchedOp → List Job
  | [] => jobs
  | op :: ops => runSchedOps (applySchedOp jobs op) ops

/-- Number of live jobs with the given id. -/
def countId (jobs : List Job) (job_id : String) : Nat :=
  (jobs.filter (fun j => j.id = job_id)).length

/-! ## Comparison endpoint (`main.py` lines 273-302) -/

/-- Response row of `GET /products/{product_id}/comparison`. -/
structure ComparisonResponse where
  platform : String
  price : Int
  url : String
deriving DecidableEq

/-- Source `get_price_comparison`: 404 when the product is absent, 502
`"Price comparison data not available"` when no comparison rows are stored
(also when the last run legitimately found zero matches), otherwise the
stored rows. -/
def get_price_comparison (st : DBState) (product_id : String) :
    Except (Nat × String) (List ComparisonResponse) :=
  match findProduct st product_id with
  | none => Except.error (404, "Product not found")
  | some _ =>
    let comparisons := st.comparisons.filter (fun c => c.product_id = product_id)
    if comparisons.isEmpty then
      Except.error (502, "Price comparison data not available")
    else
      Except.ok (comparisons.map (fun c =>
        { platform := c.platform, price := c.found_price, url := c.found_url }))

/-! ## Concrete documents and states used by the theorems below -/

/-- A Flipkart product document: the declared Flipkart name and price locators
yield non-empty values, but no `#productTitle` element exists. -/
def flipkartDoc : Page :=
  { text := fun sel =>
      if sel = "._35KyD6" then some "Cool Gadget 5"
      else if sel = "._1_WHN1" then some "₹499" else none,
    attr := fun _ => none }

/-- An Amazon product document whose price text parses to 8500 paise. -/
def amazonDoc : Page :=
  { text := fun sel =>
      if sel = "#productTitle" then some "Gadget"
      else if sel = ".a-price-whole" then some "₹85" else none,
    attr := fun _ => none }

/-- An Amazon product document for a free item: the first price locator's text
parses to the amount 0. -/
def zeroPriceDoc : Page :=
  { text := fun sel =>
      if sel = "#productTitle" then some "Freebie"
      else if sel = ".a-price-whole" then some "₹0.00" else none,
    attr := fun _ => none }

/-- A document on which every lookup fails (scrape raises immediately). -/
def emptyDoc : Page := { text := fun _ => none, attr := fun _ => none }

/-- A tracked Amazon product with current price 10000 paise. -/
def prod0 : ProductR :=
  { product_id := "p1", platform := "Amazon", url := "https://www.amazon.in/dp/x1",
    name := "Gadget", image_url := "", brand := "", current_price := 10000,
    updated_at := 0 }

/-- An active, untriggered alert on `prod0` with target price 9000 paise. -/
def alert0 : AlertR :=
  { alert_id := "a1", user_email := "u@example.com", product_id := "p1",
    target_price := 9000, is_active := true, is_triggered := false,
    date_triggered := none }

/-- Store with `prod0` tracked, one alert, no history, no comparisons. -/
def st0 : DBState :=
  { products := [prod0], records := [], alerts := [alert0], comparisons := [] }

/-- A cross-platform search result used by the comparison theorems. -/
def cand0 : Candidate :=
  { platform := "Flipkart", name := "Gadget X", price := 9500,
    url := "https://www.flipkart.com/g/p/1", match_score := none }

/-- Store with `prod0` tracked and one stale comparison row for it. -/
def stC : DBState :=
  { products := [prod0], records := [], alerts := [],
    comparisons := [{ product_id := "p1", platform := "Meesho",
                      found_name := "Old", found_price := 99,
                      found_url := "u", last_checked := 0 }] }

/-! ## Claim C4 (Platform Extractor and the unconditional `#productTitle` wait) -/

/-- Claim C4: the claim states that extraction from a Flipkart document
succeeds whenever some declared Flipkart name locator and some declared price
locator yield non-empty values, regardless of which elements (such as Amazon's
`#productTitle`) are absent.  On `flipkartDoc` the per-platform extractor
`_scrape_flipkart` does succeed with exactly those locators, but the pipeline
entry point `scrape_product` first waits for Amazon's `#productTitle` on every
platform, so the scrape times out and fails.  This contradicts the declared
per-platform selector table and the spec's §4.1 contract: the wait is a slip
in the code. -/
theorem scrape_product_requires_amazon_title :
    scrape_flipkart flipkartDoc "https://www.flipkart.com/cool-gadget/p/1"
      = Except.ok { name := "Cool Gadget 5", price := 49900, image_url := "",
                    platform := "Flipkart", brand := "", model := "",
                    url := "https://www.flipkart.com/cool-gadget/p/1" }
    ∧ scrape_product flipkartDoc "https://www.flipkart.com/cool-gadget/p/1"
      = Except.error ScrapeError.waitTimeout := by
  constructor
  · with_unfolding_all rfl
  · with_unfolding_all rfl

/-! ## Claim C3 (Price Normalizer) -/

/-- Claim C3 (counterexample): the claim says the Price Normalizer returns
`round(v * 100)` and is lossless for typical two-decimal amounts.  The source
computes `int(value * 100)` in double precision, which truncates.  On
`"₹1.006"` the bit-accurate model returns 100 while `round(1.006 * 100) =
101` (and the spec-modelled round version returns 101); on the two-decimal
amount `"₹4.35"` the double product is 434.99999999999994…, so the source
returns 434 where the claim's `round(4.35 * 100)` is 435 — the asserted
losslessness also fails. -/
theorem extract_price_truncates_counterexample :
    extract_price_double "₹1.006" = Except.ok 100
    ∧ extract_price_specRound "₹1.006" = Except.ok 101
    ∧ round ((1006 : Rat) / 1000 * 100) = 101
    ∧ extract_price_double "₹4.35" = Except.ok 434
    ∧ round ((435 : Rat) / 100 * 100) = 435 := by
  refine ⟨?_, ?_, ?_, ?_, ?_⟩
  · with_unfolding_all rfl
  · with_unfolding_all rfl
  · norm_num [round_eq]
  · with_unfolding_all rfl
  · norm_num [round_eq]

/-! ## Claim C5 (Query Builder) -/

/-- Claim C5 (counterexample): the claim says that for the name
`"Widget Pro X123-Y (Black)"` a model token of ≥5 alphanumerics is found and
the query is `"Acme <model>"`.  In fact `\b([A-Z0-9]{5,})\b` finds nothing
(the hyphen is a word boundary, so the longest `[A-Z0-9]` token is `X123`,
four characters), and the query is built from the core title instead:
`"Acme Widget Pro X123"`. -/
theorem build_search_query_instance_counterexample :
    extract_model "Widget Pro X123-Y (Black)" = none
    ∧ build_search_query "Widget Pro X123-Y (Black)" "Acme" = "Acme Widget Pro X123" := by
  constructor
  · decide
  · decide

/-! ## Claim C9 (zero-priced listing treated as missing price) -/

/-- Claim C9: on any Amazon document whose name element is present and
non-empty and whose price selector loop yields the parsed amount `0`, the
extractor raises `Could not find product price` (the `if not price:` check
treats `0` as absent) instead of returning a record with price 0, both from
`_scrape_amazon` and from the `scrape_product` entry point. -/
theorem zero_price_extraction_fails (page : Page) (url : String) (n : String)
    (h1 : page.text "#productTitle" = some n) (h2 : n ≠ "")
    (h3 : priceLoop page amazonPriceSelectors = some 0)
    (h4 : containsSub "amazon.in".data url.data = true) :
    scrape_amazon page url = Except.error ScrapeError.missingPrice
    ∧ scrape_product page url = Except.error ScrapeError.missingPrice := by
  have hA : scrape_amazon page url = Except.error ScrapeError.missingPrice := by
    unfold scrape_amazon
    rw [show amazonNameSelector = "#productTitle" from rfl, h1]
    simp [h2, h3]
  refine ⟨hA, ?_⟩
  unfold scrape_product
  rw [h1, h4]
  simpa using hA

/-- Witness for `zero_price_extraction_fails` at the concrete free-item
document. -/
theorem zero_price_extraction_fails_witness :
    scrape_amazon zeroPriceDoc "https://www.amazon.in/dp/free"
      = Except.error ScrapeError.missingPrice
    ∧ scrape_product zeroPriceDoc "https://www.amazon.in/dp/free"
      = Except.error ScrapeError.missingPrice :=
  zero_price_extraction_fails zeroPriceDoc "https://www.amazon.in/dp/free" "Freebie"
    (by rfl) (by decide) (by with_unfolding_all rfl) (by rfl)

/-! ## Claim C10 (comparison endpoint rejects an empty comparison set) -/

/-- Claim C10: for an existing product, `GET /products/{id}/comparison`
returns the 502 error `"Price comparison data not available"` whenever the
stored comparison set is empty — including when the last comparison run
legitimately found zero matches — and returns the stored rows only when at
least one exists. -/
theorem get_price_comparison_spec (st : DBState) (pid : String)
    (hp : (findProduct st pid).isSome = true) :
    (st.comparisons.filter (fun c => c.product_id = pid) = [] →
      get_price_comparison st pid
        = Except.error (502, "Price comparison data not available"))
    ∧ (st.comparisons.filter (fun c => c.product_id = pid) ≠ [] →
      get_price_comparison st pid
        = Except.ok ((st.comparisons.filter (fun c => c.product_id = pid)).map
            (fun c => { platform := c.platform, price := c.found_price,
                        url := c.found_url }))) := by
  obtain ⟨p, hp'⟩ := Option.isSome_iff_exists.mp hp
  unfold get_price_comparison
  rw [hp']
  constructor
  · intro h
    simp [h]
  · intro h
    simp [List.isEmpty_iff, h]

/-- Witness for `get_price_comparison_spec`: on `st0` (product tracked, empty
comparison set) the endpoint fails with 502; on `stC` (one stored row) it
returns the row. -/
theorem get_price_comparison_spec_witness :
    get_price_comparison st0 "p1"
      = Except.error (502, "Price comparison data not available")
    ∧ get_price_comparison stC "p1"
      = Except.ok [{ platform := "Meesho", price := 99, url := "u" }] := by
  constructor
  · exact (get_price_comparison_spec st0 "p1" (by rfl)).1 (by rfl)
  · exact ((get_price_comparison_spec stC "p1" (by rfl)).2 (by decide)).trans
      (by rfl)

/-! ## Claim C2 (Price Update Reconciler failure atomicity) -/

/-- Claim C2: if the scrape raises before any commit, `update_product_price`
rolls back and leaves the persisted state unchanged (no price point, no
product fields, no alert fields change) and returns without raising, making
zero notification attempts; for an id with no stored product it is a warn-only
no-op. -/
theorem update_product_price_rollback (st : DBState) (pid : String) (page : Page)
    (now : Nat) (deliveryOk : Nat → Bool) :
    (findProduct st pid = none →
      update_product_price st pid page now deliveryOk = (st, 0))
    ∧ (∀ prod e, findProduct st pid = some prod →
        scrape_product page prod.url = Except.error e →
        update_product_price st pid page now deliveryOk = (st, 0)) := by
  constructor
  · intro h
    unfold update_product_price
    rw [h]
  · intro prod e h1 h2
    unfold update_product_price
    rw [h1]
    dsimp only
    rw [h2]

/-- Witness for `update_product_price_rollback`: on `st0`, a document on which
the scrape fails immediately leaves the store untouched, and a missing product
id is a no-op. -/
theorem update_product_price_rollback_witness :
    update_product_price st0 "p1" emptyDoc 5 (fun _ => true) = (st0, 0)
    ∧ update_product_price st0 "nope" amazonDoc 5 (fun _ => true) = (st0, 0) := by
  constructor
  · exact (update_product_price_rollback st0 "p1" emptyDoc 5 (fun _ => true)).2
      prod0 ScrapeError.waitTimeout (by rfl) (by rfl)
  · exact (update_product_price_rollback st0 "nope" amazonDoc 5 (fun _ => true)).1
      (by rfl)

/-! ## Claim C7 (Comparison Reconciler) -/

/-- Helper: selecting rows of one product after dropping that product's rows
yields nothing. -/
lemma filter_ne_then_eq (l : List ComparisonR) (pid : String) :
    (l.filter (fun c => c.product_id ≠ pid)).filter (fun c => c.product_id = pid) = [] := by
  induction l with
  | nil => rfl
  | cons c cs ih =>
    by_cases h : c.product_id = pid <;> simp [List.filter_cons, h, ih]

/-- Helper: dropping one product's rows does not change another product's
rows. -/
lemma filter_ne_other (l : List ComparisonR) (pid q : String) (h : q ≠ pid) :
    (l.filter (fun c => c.product_id ≠ pid)).filter (fun c => c.product_id = q)
      = l.filter (fun c => c.product_id = q) := by
  rw [List.filter_filter]
  apply List.filter_congr
  intro c _
  by_cases h2 : c.product_id = q
  · have h3 : c.product_id ≠ pid := fun hh => h (h2 ▸ hh)
    simp [h2, h3, h]
  · simp [h2]

/-- Helper: the comparison set written by a successful run. -/
lemma update_comparison_comparisons (st : DBState) (pid : String) (prod : ProductR)
    (rs : List Candidate) (now : Nat) (hfind : findProduct st pid = some prod) :
    (update_cross_platform_comparison st pid (some rs) now).comparisons
      = st.comparisons.filter (fun c => c.product_id ≠ pid)
        ++ rs.map (mkComparison pid now) := by
  unfold update_cross_platform_comparison
  rw [hfind]

/-- Helper: a successful run leaves the products table unchanged. -/
lemma update_comparison_products (st : DBState) (pid : String)
    (search : Option (List Candidate)) (now : Nat) :
    (update_cross_platform_comparison st pid search now).products = st.products := by
  unfold update_cross_platform_comparison
  cases findProduct st pid <;> cases search <;> rfl

/-- Helper: the product's rows after a successful run are exactly the rows
built from the search results. -/
lemma update_comparison_filter_self (st : DBState) (pid : String) (prod : ProductR)
    (rs : List Candidate) (now : Nat) (hfind : findProduct st pid = some prod) :
    (update_cross_platform_comparison st pid (some rs) now).comparisons.filter
        (fun c => c.product_id = pid) = rs.map (mkComparison pid now) := by
  rw [update_comparison_comparisons st pid prod rs now hfind, List.filter_append,
    filter_ne_then_eq]
  rw [List.nil_append, List.filter_eq_self]
  intro c hc
  obtain ⟨r, _, rfl⟩ := List.mem_map.mp hc
  simp [mkComparison]

/-- Claim C7: a comparison run that reaches the delete step replaces the
stored set wholesale with exactly this run's matches; other products' rows
are untouched; two consecutive runs with identical search results leave the
content unchanged and refresh the last-checked time; a run with zero matches
empties the set; and a pipeline exception raised before the delete step
leaves the whole state (prior comparison set included) untouched. -/
theorem update_cross_platform_comparison_spec (st : DBState) (pid : String)
    (prod : ProductR) (rs : List Candidate) (now now₂ : Nat)
    (hfind : findProduct st pid = some prod) :
    ((update_cross_platform_comparison st pid (some rs) now).comparisons.filter
        (fun c => c.product_id = pid) = rs.map (mkComparison pid now))
    ∧ (∀ q, q ≠ pid →
        (update_cross_platform_comparison st pid (some rs) now).comparisons.filter
            (fun c => c.product_id = q)
          = st.comparisons.filter (fun c => c.product_id = q))
    ∧ (((update_cross_platform_comparison
            (update_cross_platform_comparison st pid (some rs) now)
            pid (some rs) now₂).comparisons.filter
          (fun c => c.product_id = pid)).map
          (fun c => (c.platform, c.found_name, c.found_price, c.found_url))
        = (((update_cross_platform_comparison st pid (some rs) now).comparisons.filter
            (fun c => c.product_id = pid)).map
            (fun c => (c.platform, c.found_name, c.found_price, c.found_url))))
    ∧ (∀ c ∈ (update_cross_platform_comparison
          (update_cross_platform_comparison st pid (some rs) now)
          pid (some rs) now₂).comparisons.filter (fun c => c.product_id = pid),
        c.last_checked = now₂)
    ∧ ((update_cross_platform_comparison st pid (some []) now).comparisons.filter
        (fun c => c.product_id = pid) = [])
    ∧ update_cross_platform_comparison st pid none now = st := by
  have hfind1 : findProduct (update_cross_platform_comparison st pid (some rs) now) pid
      = some prod := by
    unfold findProduct
    rw [update_comparison_products]
    exact hfind
  refine ⟨update_comparison_filter_self st pid prod rs now hfind, ?_, ?_, ?_, ?_, ?_⟩
  · intro q hq
    rw [update_comparison_comparisons st pid prod rs now hfind, List.filter_append,
      filter_ne_other _ _ _ hq]
    have : (rs.map (mkComparison pid now)).filter (fun c => c.product_id = q) = [] := by
      rw [List.filter_eq_nil_iff]
      intro c hc
      obtain ⟨r, _, rfl⟩ := List.mem_map.mp hc
      simp [mkComparison]
      exact fun h => hq h.symm
    rw [this, List.append_nil]
  · rw [update_comparison_filter_self _ pid prod rs now₂ hfind1,
      update_comparison_filter_self st pid prod rs now hfind]
    simp [List.map_map, Function.comp, mkComparison]
  · intro c hc
    rw [update_comparison_filter_self _ pid prod rs now₂ hfind1] at hc
    obtain ⟨r, _, rfl⟩ := List.mem_map.mp hc
    rfl
  · rw [update_comparison_filter_self st pid prod [] now hfind]
    rfl
  · unfold update_cross_platform_comparison
    rw [hfind]

/-- Witness for `update_cross_platform_comparison_spec` on the concrete store
`stC` (one stale row) and the single search result `cand0`. -/
theorem update_cross_platform_comparison_spec_witness :
    (update_cross_platform_comparison stC "p1" (some [cand0]) 7).comparisons.filter
        (fun c => c.product_id = "p1") = [cand0].map (mkComparison "p1" 7) :=
  (update_cross_platform_comparison_spec stC "p1" prod0 [cand0] 7 8 (by rfl)).1

/-! ## Claim C8 (Job Scheduler identity) -/

/-- Helper: two strings with equal character lists are equal. -/
lemma stringDataInj {s t : String} (h : s.data = t.data) : s = t := by
  cases s; cases t; simp_all

/-- Helper: the scrape job id determines the product id. -/
lemma scrapeJobId_inj {a b : String} (h : scrapeJobId a = scrapeJobId b) : a = b := by
  have h2 : "scrape_price_".data ++ a.data = "scrape_price_".data ++ b.data := by
    rw [← String.data_append, ← String.data_append]
    exact congrArg String.data h
  exact stringDataInj (List.append_cancel_left h2)

/-- Helper: the comparison job id determines the product id. -/
lemma compareJobId_inj {a b : String} (h : compareJobId a = compareJobId b) : a = b := by
  have h2 : "compare_price_".data ++ a.data = "compare_price_".data ++ b.data := by
    rw [← String.data_append, ← String.data_append]
    exact congrArg String.data h
  exact stringDataInj (List.append_cancel_left h2)

/-- Helper: scrape job ids and comparison job ids never collide. -/
lemma scrapeJobId_ne_compareJobId (a b : String) : scrapeJobId a ≠ compareJobId b := by
  intro h
  have h2 : (scrapeJobId a).data.head? = (compareJobId b).data.head? := by rw [h]
  have e1 : (scrapeJobId a).data.head? = some 's' := by
    rw [show scrapeJobId a = "scrape_price_" ++ a from rfl, String.data_append]
    rfl
  have e2 : (compareJobId b).data.head? = some 'c' := by
    rw [show compareJobId b = "compare_price_" ++ b from rfl, String.data_append]
    rfl
  rw [e1, e2] at h2
  simp at h2

/-- Helper: job multiplicity after a removal. -/
lemma countId_removeJob (s : List Job) (j j' : String) :
    countId (removeJob s j) j' = if j' = j then 0 else countId s j' := by
  by_cases h : j' = j
  · subst h
    rw [if_pos rfl]
    unfold countId removeJob
    rw [List.filter_filter, List.length_eq_zero, List.filter_eq_nil_iff]
    intro x _
    simp
  · rw [if_neg h]
    unfold countId removeJob
    rw [List.filter_filter]
    congr 1
    apply List.filter_congr
    intro x _
    by_cases h2 : x.id = j'
    · have h3 : x.id ≠ j := fun hh => h (h2 ▸ hh)
      simp [h2, h3, h]
    · simp [h2]

/-- Helper: job multiplicity after an upsert. -/
lemma countId_addJob (s : List Job) (j : String) (hrs : Nat) (j' : String) :
    countId (addJob s j hrs) j' = if j' = j then 1 else countId s j' := by
  unfold addJob countId
  rw [List.filter_append, List.length_append]
  have h2 : countId (removeJob s j) j' = if j' = j then 0 else countId s j' :=
    countId_removeJob s j j'
  unfold countId at h2
  rw [h2]
  by_cases h : j' = j
  · simp [h, List.filter_cons]
  · have h3 : ¬ j = j' := fun hh => h hh.symm
    simp [h, List.filter_cons, h3]

/-- Helper: job multiplicity after `schedule_product_scraping`. -/
lemma countId_schedule (s : List Job) (pid j' : String) :
    countId (schedule_product_scraping s pid) j'
      = if j' = compareJobId pid then 1
        else if j' = scrapeJobId pid then 1 else countId s j' := by
  unfold schedule_product_scraping
  rw [countId_addJob, countId_addJob]

/-- Helper: job multiplicity after `remove_product_jobs`. -/
lemma countId_remove_product (s : List Job) (pid j' : String) :
    countId (remove_product_jobs s pid) j'
      = if j' = compareJobId pid ∨ j' = scrapeJobId pid then 0 else countId s j' := by
  unfold remove_product_jobs
  rw [countId_removeJob, countId_removeJob]
  by_cases h1 : j' = compareJobId pid
  · simp [h1]
  · by_cases h2 : j' = scrapeJobId pid <;> simp [h1, h2]

/-- Helper: one scheduler call keeps every id's multiplicity at most one. -/
lemma countId_applySchedOp_le (s : List Job) (op : SchedOp) (j' : String)
    (h : countId s j' ≤ 1) : countId (applySchedOp s op) j' ≤ 1 := by
  cases op with
  | schedule pid =>
    rw [applySchedOp, countId_schedule]
    split
    · exact le_refl 1
    · split
      · exact le_refl 1
      · exact h
  | remove pid =>
    rw [applySchedOp, countId_remove_product]
    split
    · exact Nat.zero_le 1
    · exact h

/-- Helper: any run of scheduler calls keeps multiplicities at most one. -/
lemma countId_runSchedOps_le (ops : List SchedOp) :
    ∀ s : List Job, (∀ j', countId s j' ≤ 1) →
      ∀ j', countId (runSchedOps s ops) j' ≤ 1 := by
  induction ops with
  | nil => intro s h j'; exact h j'
  | cons op ops ih =>
    intro s h j'
    exact ih (applySchedOp s op) (fun j'' => countId_applySchedOp_le s op j'' (h j'')) j'

/-- Helper: filtering by a weaker predicate first does not change a stronger
filter. -/
lemma filter_filter_of_imp (l : List Job) (p q : Job → Bool)
    (h : ∀ x, p x = true → q x = true) :
    (l.filter q).filter p = l.filter p := by
  rw [List.filter_filter]
  apply List.filter_congr
  intro x _
  by_cases h2 : p x = true
  · simp [h2, h x h2]
  · simp [Bool.eq_false_iff.mpr h2]

/-- Claim C8: starting from an empty store, any sequence of
`schedule_product_scraping` / `remove_product_jobs` calls leaves at most one
live job per job id; scheduling the same product twice yields exactly one
price job and one comparison job for it; and removing a product's jobs leaves
zero jobs keyed to it while any other product's jobs are unchanged. -/
theorem scheduler_job_identity (s : List Job) (pid : String) (ops : List SchedOp) :
    (∀ job_id, countId (runSchedOps [] ops) job_id ≤ 1)
    ∧ countId (schedule_product_scraping (schedule_product_scraping s pid) pid)
        (scrapeJobId pid) = 1
    ∧ countId (schedule_product_scraping (schedule_product_scraping s pid) pid)
        (compareJobId pid) = 1
    ∧ countId (remove_product_jobs s pid) (scrapeJobId pid) = 0
    ∧ countId (remove_product_jobs s pid) (compareJobId pid) = 0
    ∧ (∀ pid', pid' ≠ pid →
        (remove_product_jobs s pid).filter
            (fun j => j.id = scrapeJobId pid' || j.id = compareJobId pid')
          = s.filter (fun j => j.id = scrapeJobId pid' || j.id = compareJobId pid')) := by
  have hsc : ∀ p', scrapeJobId pid ≠ compareJobId p' := fun p' =>
    scrapeJobId_ne_compareJobId pid p'
  refine ⟨?_, ?_, ?_, ?_, ?_, ?_⟩
  · intro job_id
    apply countId_runSchedOps_le ops []
    intro j'
    simp [countId]
  · rw [countId_schedule, if_neg (hsc pid), if_pos rfl]
  · rw [countId_schedule, if_pos rfl]
  · rw [countId_remove_product, if_pos (Or.inr rfl)]
  · rw [countId_remove_product, if_pos (Or.inl rfl)]
  · intro pid' hne
    unfold remove_product_jobs removeJob
    rw [filter_filter_of_imp, filter_filter_of_imp]
    · intro x hx
      simp only [Bool.or_eq_true, decide_eq_true_eq] at hx
      apply decide_eq_true
      rcases hx with h1 | h1
      · rw [h1]
        exact fun hh => hne (scrapeJobId_inj hh)
      · rw [h1]
        exact fun hh => scrapeJobId_ne_compareJobId pid pid' hh.symm
    · intro x hx
      simp only [Bool.or_eq_true, decide_eq_true_eq] at hx
      apply decide_eq_true
      rcases hx with h1 | h1
      · rw [h1]
        exact fun hh => scrapeJobId_ne_compareJobId pid' pid hh
      · rw [h1]
        exact fun hh => hne (compareJobId_inj hh)

/-- Witness for `scheduler_job_identity`: double-scheduling product `"a"`
leaves one price job for it, and removing `"a"`'s jobs leaves product `"b"`'s
job untouched. -/
theorem scheduler_job_identity_witness :
    countId (schedule_product_scraping
      (schedule_product_scraping [] "a") "a") (scrapeJobId "a") = 1
    ∧ (remove_product_jobs [{ id := scrapeJobId "b", interval_hours := 1 }] "a").filter
        (fun j => j.id = scrapeJobId "b" || j.id = compareJobId "b")
      = [{ id := scrapeJobId "b", interval_hours := 1 }].filter
        (fun j => j.id = scrapeJobId "b" || j.id = compareJobId "b") := by
  constructor
  · exact (scheduler_job_identity [] "a" []).2.1
  · exact (scheduler_job_identity [{ id := scrapeJobId "b", interval_hours := 1 }]
      "a" []).2.2.2.2.2 "b" (by decide)

/-! ## Claim C6 (Fuzzy Matcher) -/

/-- Helper: the fold-max of a non-empty list of naturals is attained. -/
lemma nat_foldr_max_mem (l : List Nat) (h : l ≠ []) : l.foldr max 0 ∈ l := by
  induction l with
  | nil => exact absurd rfl h
  | cons x xs ih =>
    cases xs with
    | nil => simp
    | cons y ys =>
      have hm := ih (by simp)
      rw [List.foldr_cons]
      rcases Nat.le_total x ((y :: ys).foldr max 0) with h1 | h1
      · rw [Nat.max_eq_right h1]
        exact List.mem_cons_of_mem x hm
      · rw [Nat.max_eq_left h1]
        exact List.mem_cons_self x (y :: ys)

/-- Helper: the fold-max of a list of naturals bounds every element. -/
lemma nat_le_foldr_max (l : List Nat) : ∀ x ∈ l, x ≤ l.foldr max 0 := by
  induction l with
  | nil => intro x hx; cases hx
  | cons a as ih =>
    intro x hx
    rw [List.foldr_cons]
    rcases List.mem_cons.mp hx with h1 | h1
    · rw [h1]; exact Nat.le_max_left _ _
    · exact le_trans (ih x h1) (Nat.le_max_right _ _)

/-- Helper: the strictly-greater-replacement fold of `extractOne` returns the
entry of maximal score, and its position is the first position attaining that
maximum. -/
lemma pickBest_spec (xs : List (String × Nat × Nat)) : ∀ b : String × Nat × Nat,
    (pickBest b xs).2.1 = ((b :: xs).map (fun e => e.2.1)).foldr max 0
    ∧ (b :: xs)[((b :: xs).map (fun e => e.2.1)).findIdx
        (fun s => s = ((b :: xs).map (fun e => e.2.1)).foldr max 0)]?
      = some (pickBest b xs) := by
  induction xs with
  | nil =>
    intro b
    refine ⟨by simp [pickBest], ?_⟩
    simp [pickBest, List.findIdx_cons]
  | cons x xs ih =>
    intro b
    by_cases hbx : b.2.1 < x.2.1
    · -- the head is strictly beaten by `x`: the fold continues from `x`
      obtain ⟨ihx1, ihx2⟩ := ih x
      have hstep : pickBest b (x :: xs) = pickBest x xs := by
        simp [pickBest, hbx]
      have hfx_le : x.2.1 ≤ ((x :: xs).map (fun e => e.2.1)).foldr max 0 :=
        nat_le_foldr_max _ _ (by simp)
      have hlt : b.2.1 < ((x :: xs).map (fun e => e.2.1)).foldr max 0 :=
        lt_of_lt_of_le hbx hfx_le
      have hMM : ((b :: x :: xs).map (fun e => e.2.1)).foldr max 0
          = ((x :: xs).map (fun e => e.2.1)).foldr max 0 := by
        rw [List.map_cons, List.foldr_cons]
        exact Nat.max_eq_right (le_of_lt hlt)
      refine ⟨by rw [hstep, ihx1, hMM], ?_⟩
      rw [hstep]
      simp only [hMM]
      set M := ((x :: xs).map (fun e => e.2.1)).foldr max 0 with hMdef
      rw [List.map_cons, List.findIdx_cons, decide_eq_false (ne_of_lt hlt), cond_false,
        List.getElem?_cons_succ]
      exact ihx2
    · -- the head survives: the fold continues from `b`
      obtain ⟨ihb1, ihb2⟩ := ih b
      have hstep : pickBest b (x :: xs) = pickBest b xs := by
        simp [pickBest, hbx]
      have hxb : x.2.1 ≤ b.2.1 := Nat.le_of_not_lt hbx
      have hMM : ((b :: x :: xs).map (fun e => e.2.1)).foldr max 0
          = ((b :: xs).map (fun e => e.2.1)).foldr max 0 := by
        simp only [List.map_cons, List.foldr_cons]
        rw [← Nat.max_assoc, Nat.max_eq_left hxb]
      refine ⟨by rw [hstep, ihb1, hMM], ?_⟩
      rw [hstep]
      simp only [hMM]
      have hble : b.2.1 ≤ ((b :: xs).map (fun e => e.2.1)).foldr max 0 :=
        nat_le_foldr_max _ _ (by simp)
      set M := ((b :: xs).map (fun e => e.2.1)).foldr max 0 with hMdef
      rw [List.map_cons, List.findIdx_cons] at ihb2 ⊢
      by_cases hfb : b.2.1 = M
      · rw [decide_eq_true hfb, cond_true, List.getElem?_cons_zero] at ihb2 ⊢
        exact ihb2
      · have hblt : b.2.1 < M := lt_of_le_of_ne hble hfb
        have hxne : decide (x.2.1 = M) = false :=
          decide_eq_false (ne_of_lt (lt_of_le_of_lt hxb hblt))
        rw [decide_eq_false hfb, cond_false, List.getElem?_cons_succ] at ihb2 ⊢
        rw [List.map_cons, List.findIdx_cons, hxne, cond_false,
          List.getElem?_cons_succ]
        exact ihb2

/-- Helper: the score components of the score entries are the scores of the
titles. -/
lemma scoreEntries_map (scorer : String → String → Nat) (target : String) :
    ∀ (ts : List String) (i : Nat),
      (scoreEntries scorer target ts i).map (fun e => e.2.1) = ts.map (scorer target) := by
  intro ts
  induction ts with
  | nil => intro i; rfl
  | cons t ts ih =>
    intro i
    simp only [scoreEntries, List.map_cons, ih]

/-- Helper: the `k`-th score entry is built from the `k`-th title with index
`i + k`. -/
lemma scoreEntries_getElem (scorer : String → String → Nat) (target : String) :
    ∀ (ts : List String) (i k : Nat),
      (scoreEntries scorer target ts i)[k]?
        = (ts[k]?).map (fun t => (t, scorer target t, i + k)) := by
  intro ts
  induction ts with
  | nil => intro i k; simp [scoreEntries]
  | cons t ts ih =>
    intro i k
    cases k with
    | zero => simp [scoreEntries]
    | succ k =>
      simp only [scoreEntries, List.getElem?_cons_succ, ih (i + 1) k]
      have : i + 1 + k = i + (k + 1) := by omega
      rw [this]

/-- Claim C6: for threshold 80, `fuzzy_best_match` returns at most one result;
no match when the candidate list is empty or the maximal token-set score is
below 80; otherwise exactly the first maximally-scoring candidate in input
order, annotated with the maximal score.  The external rapidfuzz scorer is
abstracted as a parameter, so this holds for the token-set ratio in
particular. -/
theorem fuzzy_best_match_spec (scorer : String → String → Nat) (target : String)
    (candidates : List Candidate) :
    (fuzzy_best_match scorer target candidates 80).length ≤ 1
    ∧ (candidates = [] → fuzzy_best_match scorer target candidates 80 = [])
    ∧ (maxCandidateScore scorer target candidates < 80 →
        fuzzy_best_match scorer target candidates 80 = [])
    ∧ (candidates ≠ [] → 80 ≤ maxCandidateScore scorer target candidates →
        ∃ c, candidates[firstBestIdx scorer target candidates]? = some c
          ∧ scorer target c.name = maxCandidateScore scorer target candidates
          ∧ (∀ j c', j < firstBestIdx scorer target candidates →
              candidates[j]? = some c' →
              scorer target c'.name < maxCandidateScore scorer target candidates)
          ∧ fuzzy_best_match scorer target candidates 80
            = [{ c with
                  match_score := some (maxCandidateScore scorer target candidates) }]) := by
  cases candidates with
  | nil =>
    refine ⟨by simp [fuzzy_best_match], fun _ => rfl, fun _ => rfl, fun h => absurd rfl h⟩
  | cons c0 cs =>
    obtain ⟨hp1, hp2⟩ := pickBest_spec
      (scoreEntries scorer target (cs.map (fun c => c.name)) 1)
      (c0.name, scorer target c0.name, 0)
    have hme : (c0.name, scorer target c0.name, 0)
          :: scoreEntries scorer target (cs.map (fun c => c.name)) 1
        = scoreEntries scorer target ((c0 :: cs).map (fun c => c.name)) 0 := rfl
    have hscores : (((c0.name, scorer target c0.name, 0)
          :: scoreEntries scorer target (cs.map (fun c => c.name)) 1).map
            (fun e => e.2.1))
        = (c0 :: cs).map (fun c => scorer target c.name) := by
      rw [hme, scoreEntries_map, List.map_map]
      rfl
    rw [hscores] at hp1 hp2
    have hMdef : maxCandidateScore scorer target (c0 :: cs)
        = ((c0 :: cs).map (fun c => scorer target c.name)).foldr max 0 := rfl
    rw [← hMdef] at hp1 hp2
    have hkdef : firstBestIdx scorer target (c0 :: cs)
        = ((c0 :: cs).map (fun c => scorer target c.name)).findIdx
            (fun s => s = maxCandidateScore scorer target (c0 :: cs)) := rfl
    rw [← hkdef] at hp2
    rw [hme] at hp2
    rw [scoreEntries_getElem] at hp2
    -- the entry at the winning index comes from a real candidate
    have hget : (((c0 :: cs).map (fun c => c.name))[firstBestIdx scorer target (c0 :: cs)]?)
        = ((c0 :: cs)[firstBestIdx scorer target (c0 :: cs)]?).map (fun c => c.name) :=
      List.getElem?_map _ _ _
    rw [hget] at hp2
    rcases hc : (c0 :: cs)[firstBestIdx scorer target (c0 :: cs)]? with _ | c
    · rw [hc] at hp2
      simp at hp2
    · rw [hc] at hp2
      rw [Option.map_some', Option.map_some', Nat.zero_add] at hp2
      replace hp2 := Option.some.inj hp2
      -- the fold result is the entry of the winning candidate
      have hscore : scorer target c.name = maxCandidateScore scorer target (c0 :: cs) := by
        have h2 := congrArg (fun e => e.2.1) hp2
        simp only at h2
        rw [h2, hp1]
      have hres : pickBest (c0.name, scorer target c0.name, 0)
            (scoreEntries scorer target (cs.map (fun c => c.name)) 1)
          = (c.name, maxCandidateScore scorer target (c0 :: cs),
              firstBestIdx scorer target (c0 :: cs)) := by
        rw [← hp2, hscore]
      have hEO : extractOne scorer target ((c0 :: cs).map (fun c => c.name))
          = some (pickBest (c0.name, scorer target c0.name, 0)
              (scoreEntries scorer target (cs.map (fun c => c.name)) 1)) := rfl
      have hfm : fuzzy_best_match scorer target (c0 :: cs) 80
          = if 80 ≤ maxCandidateScore scorer target (c0 :: cs) then
              [{ c with
                  match_score := some (maxCandidateScore scorer target (c0 :: cs)) }]
            else [] := by
        unfold fuzzy_best_match
        dsimp only
        rw [hEO, hres]
        simp only [List.map_cons, List.isEmpty_cons, Bool.false_eq_true, if_false]
        rw [hc]
      refine ⟨?_, fun h => absurd h (List.cons_ne_nil c0 cs), ?_, ?_⟩
      · rw [hfm]
        split
        · exact le_refl 1
        · exact Nat.zero_le 1
      · intro hlt
        rw [hfm, if_neg (Nat.not_le_of_lt hlt)]
      · intro _ hge
        refine ⟨c, rfl, hscore, ?_, by rw [hfm, if_pos hge]⟩
        intro j c' hj hj'
        have hjlen : j < ((c0 :: cs).map (fun c => scorer target c.name)).length := by
          have : j < (c0 :: cs).length := (List.getElem?_eq_some.mp hj').1
          simpa using this
        have hfalse := @List.not_of_lt_findIdx _
            (fun s => decide (s = maxCandidateScore scorer target (c0 :: cs)))
            ((c0 :: cs).map (fun c => scorer target c.name)) j
            (by rw [← hkdef]; exact hj)
        have hjv : ((c0 :: cs).map (fun c => scorer target c.name))[j]
            = scorer target c'.name := by
          have h1 : ((c0 :: cs).map (fun c => scorer target c.name))[j]?
              = some (scorer target c'.name) := by
            rw [List.getElem?_map, hj']
            rfl
          exact Option.some.inj ((List.getElem?_eq_getElem hjlen).symm.trans h1)
        rw [hjv] at hfalse
        have hne' : scorer target c'.name ≠ maxCandidateScore scorer target (c0 :: cs) :=
          of_decide_eq_false hfalse
        have hle' : scorer target c'.name ≤ maxCandidateScore scorer target (c0 :: cs) := by
          rw [hMdef]
          apply nat_le_foldr_max
          rw [← hjv]
          exact List.getElem_mem hjlen
        exact lt_of_le_of_ne hle' hne'

/-- Witness for `fuzzy_best_match_spec`: a scorer giving the exact-title match
100 and everything else 50, a single matching candidate, threshold 80. -/
theorem fuzzy_best_match_spec_witness :
    fuzzy_best_match (fun a b => if a = b then 100 else 50) "Gadget X" [cand0] 80
      = [{ cand0 with match_score := some 100 }] := by
  obtain ⟨c, hc, -, -, hfm⟩ := (fuzzy_best_match_spec
    (fun a b => if a = b then 100 else 50) "Gadget X" [cand0]).2.2.2
    (by decide) (by decide)
  have h0 : firstBestIdx (fun a b => if a = b then 100 else 50) "Gadget X" [cand0] = 0 := by
    decide
  rw [h0] at hc
  have hcc : c = cand0 := (Option.some.inj hc).symm
  rw [hfm, hcc]
  have hM : maxCandidateScore (fun a b => if a = b then 100 else 50) "Gadget X" [cand0]
      = 100 := by decide
  rw [hM]

/-! ## Claim C1 (Price Update Reconciler happy path) -/

/-- Helper: the Boolean alert filter of the source query, as a proposition. -/
lemma alertEligible_iff (pid : String) (p : Int) (a : AlertR) :
    alertEligible pid p a = true
      ↔ (a.product_id = pid ∧ a.is_active = true ∧ a.is_triggered = false
          ∧ p ≤ a.target_price) := by
  unfold alertEligible
  simp [Bool.and_eq_true, and_assoc]

/-- Helper: updating the first row with a given id (by an id-preserving
function) updates exactly the row `first()` returned. -/
lemma findProduct_updateFirst (ps : List ProductR) (pid : String)
    (f : ProductR → ProductR) (hf : ∀ p, (f p).product_id = p.product_id)
    (prod : ProductR) (h : ps.find? (fun p => p.product_id = pid) = some prod) :
    (updateFirstProduct f pid ps).find? (fun p => p.product_id = pid)
      = some (f prod) := by
  induction ps with
  | nil => simp [List.find?] at h
  | cons a ps ih =>
    by_cases ha : a.product_id = pid
    · have haprod : a = prod := by
        simpa [List.find?, ha] using h
      subst haprod
      simp [updateFirstProduct, ha, List.find?, hf]
    · simp only [List.find?, ha, decide_eq_false ha, cond_false] at h
      simp only [updateFirstProduct, if_neg ha, List.find?, decide_eq_false ha, cond_false]
      exact ih h

/-- Helper: a reconciler run never un-triggers an alert: whatever happens on a
later run (missing product, failed scrape, or a successful scrape with any
price), an alert that is already triggered is returned unchanged, with its
`date_triggered` intact, and is excluded from the notification query. -/
lemma update_keeps_triggered (st₁ : DBState) (pid : String) (page₂ : Page)
    (now₂ : Nat) (d₂ : Nat → Bool) (i : Nat) (a' : AlertR)
    (ha' : st₁.alerts[i]? = some a') (htrig : a'.is_triggered = true) :
    (update_product_price st₁ pid page₂ now₂ d₂).1.alerts[i]? = some a' := by
  unfold update_product_price
  cases hfp : findProduct st₁ pid with
  | none => exact ha'
  | some prod₁ =>
    dsimp only
    cases hscr : scrape_product page₂ prod₁.url with
    | error e => exact ha'
    | ok info₂ =>
      dsimp only
      rw [List.getElem?_map, ha']
      simp [alertEligible, htrig]

/-- Claim C1: for a tracked product whose scrape succeeds with price `p`, one
reconciler run appends exactly one price point with price `p`, sets the
product's current price to `p`, triggers each active untriggered alert with
`target_price ≥ p` exactly once (setting `date_triggered`), makes one
notification attempt per such alert, produces a state independent of whether
any notification delivery succeeds or fails, and a subsequent run — whatever
it scrapes — leaves every already-triggered alert unchanged. -/
theorem update_product_price_triggers (st : DBState) (pid : String) (page : Page)
    (now now₂ : Nat) (dOk dOk₂ : Nat → Bool) (prod : ProductR) (info : ProductInfo)
    (hfind : findProduct st pid = some prod)
    (hscrape : scrape_product page prod.url = Except.ok info) :
    PriceUpdateOutcome st pid prod.platform info.price now
        (update_product_price st pid page now dOk)
    ∧ (∀ d d', update_product_price st pid page now d
        = update_product_price st pid page now d')
    ∧ (∀ (i : Nat) (a' : AlertR),
        (update_product_price st pid page now dOk).1.alerts[i]? = some a' →
        a'.is_triggered = true →
        ∀ page₂, (update_product_price
            (update_product_price st pid page now dOk).1 pid page₂ now₂
            dOk₂).1.alerts[i]? = some a') := by
  have hupd : update_product_price st pid page now dOk
      = ({ st with
            products := updateFirstProduct
              (fun p0 => { p0 with current_price := info.price, updated_at := now })
              pid st.products,
            records := st.records
              ++ [{ product_id := pid, price := info.price,
                    platform := prod.platform }],
            alerts := st.alerts.map (fun a =>
              if alertEligible pid info.price a then
                { a with is_triggered := true, date_triggered := some now }
              else a) },
          (st.alerts.filter (alertEligible pid info.price)).length) := by
    unfold update_product_price
    rw [hfind]
    dsimp only
    rw [hscrape]
  refine ⟨⟨?_, ?_, ?_, ?_, ?_, ?_⟩, ?_, ?_⟩
  · rw [hupd]
  · refine ⟨{ prod with current_price := info.price, updated_at := now }, ?_, rfl, rfl⟩
    rw [hupd]
    exact findProduct_updateFirst st.products pid
      (fun p0 => { p0 with current_price := info.price, updated_at := now })
      (fun _ => rfl) prod hfind
  · rw [hupd]
    exact List.length_map _ _
  · intro i a hia
    constructor
    · intro hPP
      rw [hupd]
      dsimp only
      rw [List.getElem?_map, hia, Option.map_some']
      rw [if_pos ((alertEligible_iff pid info.price a).mpr hPP)]
    · intro hPP
      rw [hupd]
      dsimp only
      rw [List.getElem?_map, hia, Option.map_some']
      rw [if_neg (fun hb => hPP ((alertEligible_iff pid info.price a).mp hb))]
  · rw [hupd]
  · rw [hupd]
  · intro d d'
    rfl
  · intro i a' ha' htrig page₂
    exact update_keeps_triggered _ pid page₂ now₂ dOk₂ i a' ha' htrig

/-- Witness for `update_product_price_triggers`: the claim's instance — store
`st0` with current price 10000 and one active untriggered alert at 9000, a
scrape yielding 8500. -/
theorem update_product_price_triggers_witness :
    PriceUpdateOutcome st0 "p1" "Amazon" 8500 1
      (update_product_price st0 "p1" amazonDoc 1 (fun _ => false)) :=
  (update_product_price_triggers st0 "p1" amazonDoc 1 2 (fun _ => false)
    (fun _ => false) prod0
    { name := "Gadget", price := 8500, image_url := "", platform := "Amazon",
      brand := "", model := "", url := "https://www.amazon.in/dp/x1" }
    (by rfl) (by with_unfolding_all rfl)).1

/-! ## Claim C5 amended (Query Builder) -/

/-- Helper: every run produced by the word-run scanner is a contiguous
substring of the scanned text. -/
lemma wordRunsAux_infix : ∀ (l acc r : List Char),
    r ∈ wordRunsAux l acc → r <:+: (acc.reverse ++ l) := by
  intro l
  induction l with
  | nil =>
    intro acc r hr
    rw [wordRunsAux] at hr
    by_cases ha : acc.isEmpty
    · rw [if_pos ha] at hr
      cases hr
    · rw [if_neg ha] at hr
      have h1 := List.mem_singleton.mp hr
      subst h1
      simp
  | cons c cs ih =>
    intro acc r hr
    rw [wordRunsAux] at hr
    by_cases hw : isWordChar c
    · rw [if_pos hw] at hr
      have h2 := ih (c :: acc) r hr
      simpa [List.append_assoc] using h2
    · rw [if_neg hw] at hr
      have htail : ∀ r', r' ∈ wordRunsAux cs [] → r' <:+: (acc.reverse ++ c :: cs) := by
        intro r' hr'
        have h2 := ih [] r' hr'
        simp only [List.reverse_nil, List.nil_append] at h2
        exact h2.trans ((List.suffix_cons c cs).trans (List.suffix_append _ _)).isInfix
      by_cases ha : acc.isEmpty
      · rw [if_pos ha] at hr
        exact htail r hr
      · rw [if_neg ha] at hr
        rcases List.mem_cons.mp hr with h1 | h1
        · subst h1
          exact (List.prefix_append _ _).isInfix
        · exact htail r h1

/-- Helper: a model code extracted from a name is a contiguous token of at
least five `[A-Z0-9]` characters of that name. -/
lemma extract_model_spec (name m : String) (h : extract_model name = some m) :
    5 ≤ m.length ∧ m.data.all isUpperAlnum = true ∧ m.data <:+: name.data := by
  unfold extract_model at h
  cases hf : (wordRuns name.data).find?
      (fun r => decide (5 ≤ r.length) && r.all isUpperAlnum) with
  | none => rw [hf] at h; cases h
  | some r =>
    rw [hf, Option.map_some'] at h
    have hm : m = String.mk r := (Option.some.inj h).symm
    have hpred := List.find?_some hf
    have hmem := List.mem_of_find?_eq_some hf
    rw [Bool.and_eq_true, decide_eq_true_eq] at hpred
    have hinfix : r <:+: name.data := by
      have h2 := wordRunsAux_infix name.data [] r hmem
      simpa using h2
    subst hm
    exact ⟨hpred.1, hpred.2, hinfix⟩

/-- Claim C5 (amended): whenever a model code is extractable from the name it
is a contiguous token of at least five `[A-Z0-9]` characters and the query is
`"{brand} {model}"` trimmed; otherwise the query is the core title, prefixed
with the brand unless the brand already occurs case-insensitively inside it.
On the spec's instances: `"Widget Pro X123-Y (Black)"` has no model token, so
with brand `"Acme"` the query is `"Acme Widget Pro X123"`; for
`"Acme Widget Pro"` with brand `"Acme"` the query equals the core title. -/
theorem build_search_query_spec (name brand : String) :
    (∀ m, extract_model name = some m →
        5 ≤ m.length ∧ m.data.all isUpperAlnum = true ∧ m.data <:+: name.data
        ∧ build_search_query name brand = pyStripStr (brand ++ " " ++ m))
    ∧ (extract_model name = none →
        (containsSub (lowerL brand.data) (lowerL (extract_core_title name).data)
            = true →
          build_search_query name brand = pyStripStr (extract_core_title name))
        ∧ (containsSub (lowerL brand.data) (lowerL (extract_core_title name).data)
            = false →
          build_search_query name brand
            = pyStripStr (brand ++ " " ++ extract_core_title name)))
    ∧ build_search_query "Widget Pro X123-Y (Black)" "Acme" = "Acme Widget Pro X123"
    ∧ build_search_query "Acme Widget Pro" "Acme" = "Acme Widget Pro" := by
  refine ⟨?_, ?_, by decide, by decide⟩
  · intro m hm
    obtain ⟨h1, h2, h3⟩ := extract_model_spec name m hm
    refine ⟨h1, h2, h3, ?_⟩
    unfold build_search_query
    rw [hm]
  · intro hnone
    constructor
    · intro hcont
      unfold build_search_query
      rw [hnone]
      simp [hcont]
    · intro hcont
      unfold build_search_query
      rw [hnone]
      simp [hcont]

/-- Witness for `build_search_query_spec` at a name carrying the model token
`AB123X`. -/
theorem build_search_query_spec_witness :
    5 ≤ ("AB123X" : String).length
    ∧ ("AB123X" : String).data.all isUpperAlnum = true
    ∧ ("AB123X" : String).data <:+: ("Acme Phone AB123X (Blue)" : String).data
    ∧ build_search_query "Acme Phone AB123X (Blue)" "Acme"
      = pyStripStr ("Acme" ++ " " ++ "AB123X") :=
  (build_search_query_spec "Acme Phone AB123X (Blue)" "Acme").1 "AB123X" (by decide)

/-! ## Claim C3 amended (Price Normalizer truncates) -/

/-- Helper: a decimal digit is not a comma. -/
lemma digit_ne_comma {c : Char} (h : c.isDigit = true) : c ≠ ',' := by
  intro hc
  subst hc
  exact absurd h (by decide)

/-- Helper: a decimal digit is in the `[\d,]` class. -/
lemma digit_digitOrComma {c : Char} (h : c.isDigit = true) : digitOrComma c = true := by
  simp [digitOrComma, h]

/-- Helper: a character outside the `[\d,]` class is neither a digit nor a
comma. -/
lemma of_digitOrComma_false {c : Char} (h : digitOrComma c = false) :
    c.isDigit = false ∧ c ≠ ',' := by
  unfold digitOrComma at h
  rcases Bool.or_eq_false_iff.mp h with ⟨h1, h2⟩
  exact ⟨h1, by simpa using h2⟩

/-- Helper: a decimal digit is not whitespace. -/
lemma digit_not_ws {c : Char} (h : c.isDigit = true) : c.isWhitespace = false := by
  cases hb : c.isWhitespace
  · rfl
  · exfalso
    simp only [Char.isWhitespace, Bool.or_eq_true, decide_eq_true_eq] at hb
    rcases hb with ((h1 | h1) | h1) | h1 <;> (subst h1; exact absurd h (by decide))

/-- Helper: a decimal digit is not the mojibake lead byte. -/
lemma digit_ne_mojibake {c : Char} (h : c.isDigit = true) : c ≠ 'â' := by
  intro hc
  subst hc
  exact absurd h (by decide)

/-- Helper: the mojibake replacement is the identity on text without the lead
character. -/
lemma stripRupee_eq_self : ∀ l : List Char,
    (∀ c ∈ l, c ≠ 'â') → stripRupeeMojibake l = l := by
  intro l
  induction l using stripRupeeMojibake.induct with
  | case1 rest ih =>
    intro h
    exact absurd rfl (h 'â' (by simp))
  | case2 c rest hne ih =>
    intro h
    rw [stripRupeeMojibake.eq_2 c rest hne]
    rw [ih (fun c' hc' => h c' (List.mem_cons_of_mem _ hc'))]
  | case3 =>
    intro _
    rfl

/-- Helper: the mojibake replacement only removes characters. -/
lemma mem_stripRupee : ∀ l : List Char, ∀ c ∈ stripRupeeMojibake l, c ∈ l := by
  intro l
  induction l using stripRupeeMojibake.induct with
  | case1 rest ih =>
    intro c hc
    rw [stripRupeeMojibake.eq_1] at hc
    exact List.mem_cons_of_mem _ (List.mem_cons_of_mem _ (List.mem_cons_of_mem _ (ih c hc)))
  | case2 c0 rest hne ih =>
    intro c hc
    rw [stripRupeeMojibake.eq_2 c0 rest hne] at hc
    rcases List.mem_cons.mp hc with h1 | h1
    · exact h1 ▸ List.mem_cons_self _ _
    · exact List.mem_cons_of_mem _ (ih c h1)
  | case3 =>
    intro c hc
    rw [stripRupeeMojibake.eq_3] at hc
    cases hc

/-- Helper: stripping only removes characters. -/
lemma mem_pyStrip {l : List Char} : ∀ c ∈ pyStrip l, c ∈ l := by
  intro c hc
  unfold pyStrip at hc
  rw [List.mem_reverse] at hc
  have h1 := (List.dropWhile_suffix _).subset hc
  rw [List.mem_reverse] at h1
  exact (List.dropWhile_suffix _).subset h1

/-- Helper: the regex scan skips a prefix without `[\d,]` characters. -/
lemma findFirstNumber_append (pre l : List Char)
    (h : ∀ c ∈ pre, digitOrComma c = false) :
    findFirstNumber (pre ++ l) = findFirstNumber l := by
  induction pre with
  | nil => rfl
  | cons c cs ih =>
    have hc := h c (List.mem_cons_self _ _)
    rw [List.cons_append, findFirstNumber, if_neg (by simp [hc])]
    exact ih (fun c' h' => h c' (List.mem_cons_of_mem _ h'))

/-- Helper: text without `[\d,]` characters has no regex match. -/
lemma findFirstNumber_none (l : List Char)
    (h : ∀ c ∈ l, digitOrComma c = false) : findFirstNumber l = none := by
  have h2 := findFirstNumber_append l [] h
  simpa using h2

/-- Helper: `dropWhile` passes a junk prefix and stops at a non-matching
anchor. -/
lemma dropWhile_append_cons (p : Char → Bool) (a : List Char) (x : Char)
    (b : List Char) (hx : p x = false) :
    (a ++ x :: b).dropWhile p = a.dropWhile p ++ x :: b := by
  induction a with
  | nil => simp [List.dropWhile_cons, hx]
  | cons c cs ih =>
    by_cases hc : p c
    · simp [List.dropWhile_cons, hc, ih]
    · simp [List.dropWhile_cons, hc]

/-- Helper: the greedy `[\d,]+\.?\d*` match on digits, a dot, and two more
digit positions, followed by number-free text. -/
lemma findFirstNumber_exact (ds fs post : List Char)
    (hds : ds ≠ []) (hdsd : ∀ c ∈ ds, c.isDigit = true)
    (hfs : ∀ c ∈ fs, c.isDigit = true)
    (hpost : ∀ c ∈ post, digitOrComma c = false) :
    findFirstNumber (ds ++ '.' :: (fs ++ post)) = some (ds ++ '.' :: fs) := by
  obtain ⟨d, ds₀, rfl⟩ := List.exists_cons_of_ne_nil hds
  have ht : ((d :: ds₀) ++ '.' :: (fs ++ post)).takeWhile digitOrComma = d :: ds₀ := by
    rw [List.takeWhile_append_of_pos (fun c hc => digit_digitOrComma (hdsd c hc))]
    rw [List.takeWhile_cons, if_neg (by decide), List.append_nil]
  have hdrop : ((d :: ds₀) ++ '.' :: (fs ++ post)).drop (d :: ds₀).length
      = '.' :: (fs ++ post) := List.drop_left _ _
  have htf : (fs ++ post).takeWhile Char.isDigit = fs := by
    rw [List.takeWhile_append_of_pos hfs]
    cases post with
    | nil => simp
    | cons q qs =>
      rw [List.takeWhile_cons,
        if_neg (by simp [(of_digitOrComma_false (hpost q (List.mem_cons_self _ _))).1]),
        List.append_nil]
  rw [List.cons_append, findFirstNumber,
    if_pos (by simp [digit_digitOrComma (hdsd d (List.mem_cons_self _ _))])]
  unfold numAt
  rw [← List.cons_append, ht]
  simp only [hdrop]
  rw [htf]

/-- Helper: `float` on digits, a dot, and two fractional digits. -/
lemma parseDecimal_exact (ds : List Char) (f₁ f₂ : Char)
    (hdsd : ∀ c ∈ ds, c.isDigit = true)
    (h1 : f₁.isDigit = true) (h2 : f₂.isDigit = true) :
    parseDecimal (ds ++ '.' :: [f₁, f₂])
      = some ((natOfDigits ds : Rat) + (natOfDigits [f₁, f₂] : Rat) / 100) := by
  have ht : (ds ++ '.' :: [f₁, f₂]).takeWhile Char.isDigit = ds := by
    rw [List.takeWhile_append_of_pos hdsd, List.takeWhile_cons, if_neg (by decide),
      List.append_nil]
  have hdrop : (ds ++ '.' :: [f₁, f₂]).drop ds.length = '.' :: [f₁, f₂] :=
    List.drop_left _ _
  unfold parseDecimal
  rw [ht]
  simp only [hdrop]
  rw [if_pos (by simp [h1, h2]), if_neg (by simp)]
  norm_num

/-- Helper: Python `int` truncation on an exact hundredths value: no
information is lost, the result is the integral number of hundredths. -/
lemma pyInt_decimal (D F : Nat) :
    pyInt (((D : Rat) + (F : Rat) / 100) * 100) = ((100 * D + F : Nat) : Int) := by
  have hval : ((D : Rat) + (F : Rat) / 100) * 100 = ((100 * D + F : Nat) : Rat) := by
    push_cast
    ring
  rw [hval]
  unfold pyInt
  rw [if_pos (by positivity)]
  rfl

/-- Claim C3 (amended): on text of the shape `junk₁ digits . d₁ d₂ junk₂`
(junk free of digits, commas and the mojibake lead), the Price Normalizer
returns the double-precision truncation `int(float(m) * 100)` — equal to the
exact minor-unit amount `100·D + F` precisely when the parsed double and its
product with 100 are exact, as in the claim's own instance 1299.99 ↦ 129999,
but one minor unit short when the double product falls just below the
integer, as for 4.35 ↦ 434; and on any text whose characters are all outside
`[\d,]` it fails with `PriceParseError`. -/
theorem extract_price_truncates
    (pre post ds : List Char) (f₁ f₂ : Char)
    (hpre : ∀ c ∈ pre, digitOrComma c = false ∧ c ≠ 'â')
    (hpost : ∀ c ∈ post, digitOrComma c = false ∧ c ≠ 'â')
    (hds : ds ≠ []) (hdsd : ∀ c ∈ ds, c.isDigit = true)
    (hf₁ : f₁.isDigit = true) (hf₂ : f₂.isDigit = true) :
    extract_price_double (String.mk (pre ++ ds ++ '.' :: f₁ :: f₂ :: post))
      = Except.ok (pyInt (roundDouble (roundDouble (decimalVal ds f₁ f₂) * 100)))
    ∧ (roundDouble (decimalVal ds f₁ f₂) = decimalVal ds f₁ f₂ →
        roundDouble (decimalVal ds f₁ f₂ * 100) = decimalVal ds f₁ f₂ * 100 →
        extract_price_double (String.mk (pre ++ ds ++ '.' :: f₁ :: f₂ :: post))
          = Except.ok ((100 * natOfDigits ds + natOfDigits [f₁, f₂] : Nat) : Int))
    ∧ extract_price_double "₹1299.99" = Except.ok 129999
    ∧ extract_price_double "₹4.35" = Except.ok 434
    ∧ (∀ s : String, (∀ c ∈ s.data, digitOrComma c = false) →
        extract_price_double s = Except.error ()) := by
  obtain ⟨d, ds₀, rfl⟩ := List.exists_cons_of_ne_nil hds
  have hmem3 : ∀ c ∈ pre ++ (d :: ds₀) ++ '.' :: f₁ :: f₂ :: post,
      c ∈ pre ∨ c ∈ d :: ds₀ ∨ c ∈ '.' :: f₁ :: f₂ :: post := by
    intro c hc
    rcases List.mem_append.mp hc with h1 | h1
    · rcases List.mem_append.mp h1 with h2 | h2
      · exact Or.inl h2
      · exact Or.inr (Or.inl h2)
    · exact Or.inr (Or.inr h1)
  have hnoa : ∀ c ∈ pre ++ (d :: ds₀) ++ '.' :: f₁ :: f₂ :: post, c ≠ 'â' := by
    intro c hc
    rcases hmem3 c hc with h1 | h1 | h1
    · exact (hpre c h1).2
    · exact digit_ne_mojibake (hdsd c h1)
    · rcases List.mem_cons.mp h1 with h2 | h2
      · subst h2; decide
      rcases List.mem_cons.mp h2 with h3 | h3
      · subst h3; exact digit_ne_mojibake hf₁
      rcases List.mem_cons.mp h3 with h4 | h4
      · subst h4; exact digit_ne_mojibake hf₂
      · exact (hpost c h4).2
  have hnoc : ∀ c ∈ pre ++ (d :: ds₀) ++ '.' :: f₁ :: f₂ :: post,
      decide (c ≠ ',') = true := by
    intro c hc
    apply decide_eq_true
    rcases hmem3 c hc with h1 | h1 | h1
    · exact (of_digitOrComma_false (hpre c h1).1).2
    · exact digit_ne_comma (hdsd c h1)
    · rcases List.mem_cons.mp h1 with h2 | h2
      · subst h2; decide
      rcases List.mem_cons.mp h2 with h3 | h3
      · subst h3; exact digit_ne_comma hf₁
      rcases List.mem_cons.mp h3 with h4 | h4
      · subst h4; exact digit_ne_comma hf₂
      · exact (of_digitOrComma_false (hpost c h4).1).2
  have hA : stripRupeeMojibake (pre ++ (d :: ds₀) ++ '.' :: f₁ :: f₂ :: post)
      = pre ++ (d :: ds₀) ++ '.' :: f₁ :: f₂ :: post :=
    stripRupee_eq_self _ hnoa
  have hB : (pre ++ (d :: ds₀) ++ '.' :: f₁ :: f₂ :: post).filter (fun c => c ≠ ',')
      = pre ++ (d :: ds₀) ++ '.' :: f₁ :: f₂ :: post :=
    List.filter_eq_self.mpr hnoc
  have hfront : (pre ++ (d :: ds₀) ++ '.' :: f₁ :: f₂ :: post).dropWhile
        Char.isWhitespace
      = pre.dropWhile Char.isWhitespace ++ (d :: ds₀) ++ '.' :: f₁ :: f₂ :: post := by
    have hsh : pre ++ (d :: ds₀) ++ '.' :: f₁ :: f₂ :: post
        = pre ++ d :: (ds₀ ++ '.' :: f₁ :: f₂ :: post) := by
      simp
    rw [hsh, dropWhile_append_cons _ _ _ _
      (digit_not_ws (hdsd d (List.mem_cons_self _ _)))]
    simp
  have hstrip : pyStrip (pre ++ (d :: ds₀) ++ '.' :: f₁ :: f₂ :: post)
      = pre.dropWhile Char.isWhitespace ++ (d :: ds₀)
        ++ '.' :: f₁ :: f₂ :: (post.reverse.dropWhile Char.isWhitespace).reverse := by
    unfold pyStrip
    rw [hfront]
    rw [show pre.dropWhile Char.isWhitespace ++ (d :: ds₀) ++ '.' :: f₁ :: f₂ :: post
        = (pre.dropWhile Char.isWhitespace ++ (d :: ds₀) ++ ['.', f₁]) ++ f₂ :: post
        from by simp]
    rw [List.reverse_append, List.reverse_cons, List.append_assoc,
      List.singleton_append,
      dropWhile_append_cons _ _ _ _ (digit_not_ws hf₂),
      List.reverse_append, List.reverse_cons, List.reverse_reverse]
    simp
  have hpre' : ∀ c ∈ pre.dropWhile Char.isWhitespace, digitOrComma c = false :=
    fun c hc => (hpre c ((List.dropWhile_suffix _).subset hc)).1
  have hpost' : ∀ c ∈ (post.reverse.dropWhile Char.isWhitespace).reverse,
      digitOrComma c = false := by
    intro c hc
    rw [List.mem_reverse] at hc
    have h1 := (List.dropWhile_suffix _).subset hc
    rw [List.mem_reverse] at h1
    exact (hpost c h1).1
  have hfind : findFirstNumber (pyStrip
        ((stripRupeeMojibake (pre ++ (d :: ds₀) ++ '.' :: f₁ :: f₂ :: post)).filter
          (fun c => c ≠ ',')))
      = some ((d :: ds₀) ++ '.' :: [f₁, f₂]) := by
    rw [hA, hB, hstrip]
    rw [show pre.dropWhile Char.isWhitespace ++ (d :: ds₀)
          ++ '.' :: f₁ :: f₂ :: (post.reverse.dropWhile Char.isWhitespace).reverse
        = pre.dropWhile Char.isWhitespace ++ ((d :: ds₀)
          ++ '.' :: ([f₁, f₂] ++ (post.reverse.dropWhile Char.isWhitespace).reverse))
        from by simp]
    rw [findFirstNumber_append _ _ hpre']
    exact findFirstNumber_exact (d :: ds₀) [f₁, f₂] _ (by simp) hdsd
      (by
        intro c hc
        rcases List.mem_cons.mp hc with h1 | h1
        · subst h1; exact hf₁
        · rcases List.mem_cons.mp h1 with h2 | h2
          · subst h2; exact hf₂
          · cases h2)
      hpost'
  have hE : ((d :: ds₀) ++ '.' :: [f₁, f₂]).filter (fun c => c ≠ ',')
      = (d :: ds₀) ++ '.' :: [f₁, f₂] := by
    apply List.filter_eq_self.mpr
    intro c hc
    apply decide_eq_true
    rcases List.mem_append.mp hc with h1 | h1
    · exact digit_ne_comma (hdsd c h1)
    · rcases List.mem_cons.mp h1 with h2 | h2
      · subst h2; decide
      rcases List.mem_cons.mp h2 with h3 | h3
      · subst h3; exact digit_ne_comma hf₁
      rcases List.mem_cons.mp h3 with h4 | h4
      · subst h4; exact digit_ne_comma hf₂
      · cases h4
  have hmain : extract_price_double
        (String.mk (pre ++ (d :: ds₀) ++ '.' :: f₁ :: f₂ :: post))
      = Except.ok (pyInt (roundDouble
          (roundDouble (decimalVal (d :: ds₀) f₁ f₂) * 100))) := by
    unfold extract_price_double
    dsimp only
    rw [hfind]
    dsimp only
    rw [hE, parseDecimal_exact (d :: ds₀) f₁ f₂ hdsd hf₁ hf₂, decimalVal]
  refine ⟨hmain, ?_, by with_unfolding_all rfl, by with_unfolding_all rfl, ?_⟩
  · intro hex1 hex2
    rw [hmain, hex1, hex2]
    unfold decimalVal
    rw [pyInt_decimal]
  · intro s hs
    have hnone : findFirstNumber (pyStrip
          ((stripRupeeMojibake s.data).filter (fun c => c ≠ ','))) = none := by
      apply findFirstNumber_none
      intro c hc
      exact hs c (mem_stripRupee s.data c
        (List.mem_of_mem_filter (mem_pyStrip c hc)))
    unfold extract_price_double
    dsimp only
    rw [hnone]

/-- Witness for `extract_price_truncates` at the exactly-representable amount
`"₹4.25"`: the parsed double `17/4` and the product `425` are both exact, so
the truncation is lossless and yields 425 minor units. -/
theorem extract_price_truncates_witness :
    extract_price_double (String.mk (['₹'] ++ ['4'] ++ '.' :: '2' :: '5' :: []))
      = Except.ok ((100 * natOfDigits ['4'] + natOfDigits ['2', '5'] : Nat) : Int) :=
  (extract_price_truncates ['₹'] [] ['4'] '2' '5'
    (by decide) (by decide) (by decide) (by decide) (by decide) (by decide)).2.1
    (by with_unfolding_all rfl) (by with_unfolding_all rfl)


end PricePulse
